import Mathlib

/-!
Verification development for the ai-resume-agent conversational backend.

The Python backend (FastAPI + LangGraph) is shallowly embedded here:

* `LCMessage` models the LangChain message objects held in the LangGraph
  checkpoint (`SystemMessage`, `HumanMessage`, `AIMessage` with its
  `tool_calls` list, `ToolMessage`), together with the stringly-typed
  accessors (`type`, `content`, `tool_calls`) the backend reads via
  `getattr`.
* `filter_messages` embeds the pre-model hook of the same name in
  `services/agent.py` (message-window truncation to 20 messages with a
  pinned system message and a leading tool-result drop).
* `stream_chat` embeds the SSE streaming generator in `services/agent.py`;
  the opaque LangGraph agent run is abstracted as the list of chunks it
  yields plus an optional raised exception and its checkpoint-store effect.
* `ThreadService` operations (`create_thread`, `get_thread`,
  `get_user_threads`, `has_empty_thread`, `get_thread_history`,
  `update_thread`) from `services/thread.py` and
  `UserService.get_or_create_user` from `services/user.py` are embedded
  over an explicit relational state `DB` (the `users` and `threads` MySQL
  tables from `config.init_tables`) and a `CheckpointStore` mapping thread
  ids to the persisted message channel.  The schema's
  `ON UPDATE CURRENT_TIMESTAMP` behaviour of the `updated_at` column is
  embedded in `applyThreadUpdate`.
* The broken `GET /api/threads/{user_id}` route handler from
  `routes/thread.py` is embedded via the CPython positional-arity calling
  rule (`pyCall`).
-/

/-- LangChain-style internal agent message, as stored in the LangGraph
checkpoint channel.  `ai` carries the `tool_calls` list (pending tool-call
requests); other message kinds have no `tool_calls` attribute, which the
backend reads as `None`/empty. -/
inductive LCMessage where
  | system (content : String)
  | human (content : String)
  | ai (content : String) (toolCalls : List String)
  | toolMsg (content : String)
deriving DecidableEq, Repr

/-- The `content` attribute of a message. -/
def LCMessage.content : LCMessage → String
  | .system c => c
  | .human c => c
  | .ai c _ => c
  | .toolMsg c => c

/-- The LangChain `type` tag read by `getattr(msg, "type", "")`. -/
def LCMessage.msgType : LCMessage → String
  | .system _ => "system"
  | .human _ => "human"
  | .ai _ _ => "ai"
  | .toolMsg _ => "tool"

/-- The `tool_calls` attribute read by `getattr(msg, "tool_calls", None)`;
empty for non-`ai` messages (Python `None` and `[]` are both falsy, so the
backend only distinguishes empty from non-empty). -/
def LCMessage.toolCalls : LCMessage → List String
  | .ai _ tc => tc
  | _ => []

/-- `isinstance(msg, SystemMessage)`. -/
def LCMessage.isSystemMsg : LCMessage → Bool
  | .system _ => true
  | _ => false

/-- `isinstance(msg, ToolMessage)`. -/
def LCMessage.isToolMsg : LCMessage → Bool
  | .toolMsg _ => true
  | _ => false

/-- The extraction loop of `filter_messages`: pull out the first
`SystemMessage` (if any) and return it together with the remaining
messages in order. -/
def extractFirstSystem : List LCMessage → Option LCMessage × List LCMessage
  | [] => (none, [])
  | m :: rest =>
    if m.isSystemMsg then (some m, rest)
    else
      let p := extractFirstSystem rest
      (p.1, m :: p.2)

/-- Python slice `l[-n:] if len(l) > n else l`: the most recent `n`
elements. -/
def takeRecent (n : Nat) (l : List LCMessage) : List LCMessage :=
  if n < l.length then l.drop (l.length - n) else l

/-- `filter_messages` from `services/agent.py`: the pre-model hook that
produces the `llm_input_messages` slice.  Sequences of length ≤ 20 pass
through unchanged; otherwise the first system message is pinned, the most
recent 19 (with a pinned system message) or 20 (without) of the remaining
messages are kept, and leading `ToolMessage`s of that window are dropped. -/
def filter_messages (messages : List LCMessage) : List LCMessage :=
  if messages.length ≤ 20 then messages
  else
    let p := extractFirstSystem messages
    let maxRecent : Nat := match p.1 with | some _ => 19 | none => 20
    let recent := List.dropWhile LCMessage.isToolMsg (takeRecent maxRecent p.2)
    match p.1 with
    | some s => s :: recent
    | none => recent

/-! Section: Streaming turn (`stream_chat`, `services/agent.py`) -/

/-- The persisted messages channel of the LangGraph checkpoint store,
keyed by thread id: `checkpointer.get_tuple(config)` followed by
`ct.checkpoint.get("channel_values", {}).get("messages", [])`.  `none`
models a missing checkpoint tuple. -/
def CheckpointStore : Type := String → Option (List LCMessage)

/-- A structured output event of a conversation turn, before SSE
serialisation (`{"type": "token"|"end"|"error", ...}`).  The wire `end`
event is named `done` here because `end` is a Lean keyword. -/
inductive OutputEvent where
  | token (content : String)
  | done
  | error (msg : String)
deriving DecidableEq, Repr

/-- One chunk yielded by `agent.stream(...)`.  `agent ms` models a chunk
whose truthy `"agent"` entry contains a `"messages"` list `ms`; `other`
models every chunk without one (e.g. a `tools` node update). -/
inductive StreamChunk where
  | agent (messages : List LCMessage)
  | other
deriving DecidableEq, Repr

/-- ChatRequest from `models.py`. -/
structure ChatRequest where
  user_id : String
  thread_id : String
  message : String
deriving DecidableEq, Repr

/-- An abstract run of the opaque LangGraph agent for one turn: the chunks
it successfully yields in order, an exception raised after those chunks
(if any), and the checkpoint-store writes it commits internally. -/
structure AgentRun where
  chunks : List StreamChunk
  raised : Option String
  persist : CheckpointStore → CheckpointStore

/-- Python truthiness test `not v or not str(v).strip()` used by the
`stream_chat` parameter validation: the string is empty, or stripping
whitespace leaves it empty (i.e. every character is whitespace; modelled
over space/tab/CR/LF). -/
def pyBlank (v : String) : Bool :=
  decide (v = "") || v.toList.all Char.isWhitespace

/-- The events the loop body of `stream_chat` yields for one chunk:
`chunk.get("agent")`, `"messages" in agent_chunk`, `msg = messages[-1]`
(raising `IndexError` on an empty list), then a `token` event when
`msg.content and msg.content != "\n"`. -/
def chunkEvents : StreamChunk → Except String (List OutputEvent)
  | .other => .ok []
  | .agent ms =>
    match ms.getLast? with
    | none => .error "list index out of range"
    | some m =>
      .ok (if m.content ≠ "" ∧ m.content ≠ "\n" then [.token m.content] else [])

/-- The event sequence produced by the `try` block of `stream_chat`:
process each chunk in order, emit `done` after a clean loop, and convert
the first exception (from a chunk body or from the generator itself,
modelled by `raised`) into a single terminal `error` event. -/
def emitChunks : List StreamChunk → Option String → List OutputEvent
  | [], none => [.done]
  | [], some e => [.error e]
  | c :: cs, raised =>
    match chunkEvents c with
    | .error e => [.error e]
    | .ok evs => evs ++ emitChunks cs raised

/-- The validation error message of `stream_chat`. -/
def paramErrMsg : String := "请检查参数后再进行调用"

/-- `stream_chat` from `services/agent.py`, as the pair of the structured
event sequence it yields and the checkpoint store after the turn.  A
validation failure short-circuits before the agent is invoked, so the
store is returned unchanged and the agent run is never consulted. -/
def stream_chat (req : ChatRequest) (run : AgentRun) (store : CheckpointStore) :
    List OutputEvent × CheckpointStore :=
  if pyBlank req.user_id || pyBlank req.thread_id || pyBlank req.message then
    ([.error paramErrMsg], store)
  else
    (emitChunks run.chunks run.raised, run.persist store)

/-- The token content (if any) a single ok chunk contributes. -/
def chunkToken : StreamChunk → Option String
  | .other => none
  | .agent ms =>
    ms.getLast?.bind fun m =>
      if m.content ≠ "" ∧ m.content ≠ "\n" then some m.content else none

/-- The token contents of a chunk list, in generation order. -/
def tokensOf (cs : List StreamChunk) : List String :=
  cs.filterMap chunkToken

/-- Whether processing a chunk cannot raise (`messages[-1]` exists for an
`agent` chunk). -/
def chunkOk : StreamChunk → Bool
  | .agent [] => false
  | _ => true

/-- The terminal event a turn with the given raised exception produces
when every chunk body succeeds. -/
def terminalOf : Option String → OutputEvent
  | none => .done
  | some e => .error e

/-! Section: Relational state (`config.init_tables`) and service models -/

/-- A row of the `users` table.  Timestamps are modelled as abstract `Nat`
instants. -/
structure UserRow where
  id : String
  username : String
  created_at : Nat
  updated_at : Nat
deriving DecidableEq, Repr

/-- A row of the `threads` table from `config.init_tables`.  The schema
declares `updated_at TIMESTAMP DEFAULT CURRENT_TIMESTAMP ON UPDATE
CURRENT_TIMESTAMP`, embedded in `applyThreadUpdate`. -/
structure ThreadRow where
  id : String
  user_id : String
  title : Option String
  preview : Option String
  created_at : Nat
  updated_at : Nat
deriving DecidableEq, Repr

/-- The relational database state: the `users` and `threads` tables. -/
structure DB where
  users : List UserRow
  threads : List ThreadRow
deriving DecidableEq, Repr

/-- MessageItem from `models.py`. -/
structure MessageItem where
  role : String
  content : String
deriving DecidableEq, Repr

/-- ThreadItem from `models.py`.  `created_at`/`updated_at` are optional
(`None` defaults in the Pydantic model). -/
structure ThreadItem where
  id : String
  thread_id : String
  user_id : String
  title : Option String
  preview : Option String
  is_empty : Bool
  created_at : Option Nat
  updated_at : Option Nat
deriving DecidableEq, Repr

/-- Python `a or b` on optional strings: `a` unless it is `None` or the
empty string (both falsy). -/
def pyOrStr : Option String → Option String → Option String
  | some s, b => if s = "" then b else some s
  | none, b => b

/-- `ThreadService._get_message_preview`: the content of the last
checkpointed message, truncated to `max_length` characters with an
ellipsis marker when longer; `None` when there is no checkpoint tuple or
no messages. -/
def get_message_preview (store : CheckpointStore) (thread_id : String)
    (max_length : Nat := 50) : Option String :=
  match store thread_id with
  | none => none
  | some msgs =>
    match msgs.getLast? with
    | none => none
    | some last =>
      let content := last.content
      some (if max_length < content.length then content.take max_length ++ "..." else content)

/-- `ThreadService._get_message_count`: the live number of checkpointed
messages of a thread (0 when there is no checkpoint tuple). -/
def get_message_count (store : CheckpointStore) (thread_id : String) : Nat :=
  ((store thread_id).getD []).length

/-- `ThreadService._convert_message_role`: `MESSAGE_TYPE_MAP.get(t, t)`. -/
def convert_message_role (msg_type : String) : String :=
  if msg_type = "human" then "user"
  else if msg_type = "ai" then "assistant"
  else msg_type

/-- `ThreadService._row_to_thread_item`: note `preview or
row.get("preview")`, which falls back to the stored column when the
supplied preview is `None` or empty. -/
def row_to_thread_item (row : ThreadRow) (preview : Option String := none)
    (is_empty : Bool := true) : ThreadItem :=
  { id := row.id
    thread_id := row.id
    user_id := row.user_id
    title := row.title
    preview := pyOrStr preview row.preview
    is_empty := is_empty
    created_at := some row.created_at
    updated_at := some row.updated_at }

/-- Descending `updated_at` order used by `ORDER BY updated_at DESC`. -/
def rowGE (a b : ThreadRow) : Prop := b.updated_at ≤ a.updated_at

instance : DecidableRel rowGE := fun a b => Nat.decLe b.updated_at a.updated_at

instance : IsTotal ThreadRow rowGE := ⟨fun a b => Nat.le_total b.updated_at a.updated_at⟩

instance : IsTrans ThreadRow rowGE := ⟨fun _ _ _ h h' => Nat.le_trans h' h⟩

/-- The per-row body of the `get_user_threads` loop: live preview, live
message count, `is_empty = message_count == 0`. -/
def buildThreadItem (store : CheckpointStore) (row : ThreadRow) : ThreadItem :=
  row_to_thread_item row (get_message_preview store row.id)
    (decide (get_message_count store row.id = 0))

/-- `ThreadService.get_user_threads`: `SELECT * FROM threads WHERE
user_id = %s ORDER BY updated_at DESC`, then for each row the preview and
message count recomputed live against the checkpoint store. -/
def get_user_threads (db : DB) (store : CheckpointStore) (user_id : String) :
    List ThreadItem :=
  ((db.threads.filter fun r => decide (r.user_id = user_id)).insertionSort rowGE).map
    (buildThreadItem store)

/-- `ThreadService.has_empty_thread`. -/
def has_empty_thread (db : DB) (store : CheckpointStore) (user_id : String) : Bool :=
  (get_user_threads db store user_id).any fun t => t.is_empty

/-- `ThreadService.get_thread`: `SELECT * FROM threads WHERE id = %s`,
`fetchone`, converted with the default `preview=None, is_empty=True`. -/
def get_thread (db : DB) (thread_id : String) : Option ThreadItem :=
  (db.threads.find? fun r => decide (r.id = thread_id)).map
    fun row => row_to_thread_item row

/-- The derived default username `f"user_{user_id[:8]}"` (used when the
supplied username is `None` or empty, via Python `or`). -/
def actual_username (username : Option String) (user_id : String) : String :=
  match username with
  | some s => if s = "" then "user_" ++ user_id.take 8 else s
  | none => "user_" ++ user_id.take 8

/-- The default thread title seeded by `get_or_create_user`. -/
def defaultThreadTitle : String := "默认会话"

/-- `UserService.get_or_create_user`: a no-op when the user row exists;
otherwise inserts the user row and seeds one default thread (title
`默认会话`) in the same transaction.  `default_thread_id` stands for the
fresh `uuid4` generated there and `now` for `CURRENT_TIMESTAMP`. -/
def get_or_create_user (db : DB) (user_id : String) (username : Option String)
    (default_thread_id : String) (now : Nat) : DB :=
  if db.users.any (fun u => decide (u.id = user_id)) then db
  else
    { users := db.users ++ [⟨user_id, actual_username username user_id, now, now⟩]
      threads := db.threads ++ [⟨default_thread_id, user_id, some defaultThreadTitle, none, now, now⟩] }

/-- The conflict error message raised by `create_thread`. -/
def conflictMsg : String := "已存在一个空会话，请先在该会话中发送消息后再新建会话"

/-- `ThreadService.create_thread`: ensure the user exists (committing the
user row and seeded default thread for a brand-new user), then raise
`ValueError` when the user already has an empty thread, otherwise insert
the new row and re-select it.  `new_thread_id` stands for the fresh
`uuid4`.  The database returned alongside the result is the committed
state after the call (the `get_or_create_user` commit survives a
conflict). -/
def create_thread (db : DB) (store : CheckpointStore) (now : Nat)
    (new_thread_id default_thread_id : String) (user_id : String)
    (title : Option String) : Except String ThreadItem × DB :=
  let db1 := get_or_create_user db user_id none default_thread_id now
  if has_empty_thread db1 store user_id then
    (.error conflictMsg, db1)
  else
    let row : ThreadRow := ⟨new_thread_id, user_id, title, none, now, now⟩
    let db2 : DB := { db1 with threads := db1.threads ++ [row] }
    match db2.threads.find? fun r => decide (r.id = new_thread_id) with
    | some r => (.ok (row_to_thread_item r), db2)
    | none => (.error "row not found", db2)

/-- The loop body of `ThreadService.get_thread_history` for one raw
message: skip types other than `human`/`ai`; for `ai`, skip messages with
pending `tool_calls` (`if tool_calls: continue`) and messages whose
content is empty or whitespace-only (`if not content or not
content.strip(): continue`); otherwise emit the display item. -/
def histProject (msg : LCMessage) : Option MessageItem :=
  let t := msg.msgType
  let content := msg.content
  if t ≠ "human" ∧ t ≠ "ai" then none
  else if t = "ai" ∧ msg.toolCalls ≠ [] then none
  else if t = "ai" ∧ (content = "" ∨ content.toList.all Char.isWhitespace = true) then none
  else some ⟨convert_message_role t, content⟩

/-- `ThreadService.get_thread_history`: load the checkpointed messages of
the thread (empty when there is no checkpoint tuple) and project each one
through the filtering loop, preserving order.  The `user_id` argument is
accepted but (as in the source) not used. -/
def get_thread_history (store : CheckpointStore) (user_id thread_id : String) :
    List MessageItem :=
  let _ := user_id
  let raw := (store thread_id).getD []
  raw.filterMap histProject

/-- Specification-side history projection, written from the spec's words
(§4.3): filter to `human`/`ai` roles, drop `ai` messages that have pending
tool calls or whose content is blank, then map `human`→`user`,
`ai`→`assistant`.  Compared against `get_thread_history` in the C7
refinement theorem. -/
def historySpec (raw : List LCMessage) : List MessageItem :=
  (raw.filter fun m =>
      decide (m.msgType = "human") ||
        (decide (m.msgType = "ai") && decide (m.toolCalls = []) &&
          !(m.content.toList.all Char.isWhitespace))).map
    fun m => ⟨if m.msgType = "human" then "user" else "assistant", m.content⟩

/-- MySQL `UPDATE` semantics for one `threads` row: apply the supplied
column assignments, and per the schema's `ON UPDATE CURRENT_TIMESTAMP`
set `updated_at` to the current time exactly when some column value
actually changes. -/
def applyThreadUpdate (now : Nat) (title preview : Option String)
    (r : ThreadRow) : ThreadRow :=
  let newTitle := match title with | some t => some t | none => r.title
  let newPreview := match preview with | some p => some p | none => r.preview
  let changed : Bool := decide (newTitle ≠ r.title) || decide (newPreview ≠ r.preview)
  { r with
    title := newTitle
    preview := newPreview
    updated_at := if changed then now else r.updated_at }

/-- `ThreadService.update_thread`: with no fields supplied it is a no-op
read; otherwise `UPDATE threads SET ... WHERE id = %s` followed by
`get_thread`. -/
def update_thread (db : DB) (now : Nat) (thread_id : String)
    (title preview : Option String) : Option ThreadItem × DB :=
  if title = none ∧ preview = none then
    (get_thread db thread_id, db)
  else
    let db' : DB :=
      { db with
        threads := db.threads.map fun r =>
          if decide (r.id = thread_id) then applyThreadUpdate now title preview r else r }
    (get_thread db' thread_id, db')

/-! Section: The list-threads route (`routes/thread.py`) -/

/-- A dynamically-typed Python value passed at a call site of the route
layer. -/
inductive PyValue where
  | str (s : String)
  | int (n : Nat)
deriving DecidableEq, Repr

/-- Outcome of one request to the list-threads endpoint. -/
inductive RouteOutcome where
  | response (threads : List ThreadItem) (total : Nat)
  | raised (kind : String)
deriving DecidableEq, Repr

/-- Number of caller-supplied positional parameters accepted by
`ThreadService.get_user_threads` (only `user_id`, beyond `self`). -/
def get_user_threads_param_count : Nat := 1

/-- The positional arguments `routes/thread.py`'s `get_threads` handler
passes to `service.get_user_threads`: `(user_id, page, page_size)`. -/
def get_threads_call_args (user_id : String) (page page_size : Nat) : List PyValue :=
  [.str user_id, .int page, .int page_size]

/-- The handler of `GET /api/threads/{user_id}`: CPython raises
`TypeError` when a call supplies more positional arguments than the callee
accepts.  Only on a matching arity would the body run `threads, total =
service.get_user_threads(...)`: iterable unpacking of the single list the
service returns raises `ValueError` unless it has exactly two elements,
and with exactly two elements the two bound values are single
`ThreadItem`s, so `ThreadListResponse(threads=..., total=...)` fails
Pydantic validation (`threads` is not a list of items, `total` is not an
integer).  No branch produces a response. -/
def get_threads_route (db : DB) (store : CheckpointStore) (user_id : String)
    (page page_size : Nat) : RouteOutcome :=
  if (get_threads_call_args user_id page page_size).length = get_user_threads_param_count then
    match get_user_threads db store user_id with
    | [_, _] => .raised "ValidationError"
    | _ => .raised "ValueError"
  else
    .raised "TypeError"

/-! Section: Concrete sample data for witnesses and counterexamples -/

/-- A checkpoint store with no checkpoint tuple for any thread. -/
def emptyStore : CheckpointStore := fun _ => none

/-- A store holding one human/ai exchange under thread `t1`. -/
def chatStore : CheckpointStore := fun tid =>
  if tid = "t1" then some [LCMessage.human "hello", LCMessage.ai "hi" []] else none

/-- A database with user `u1` owning the single thread `t1` (stored
preview column `cached`). -/
def sampleDB : DB :=
  { users := [⟨"u1", "user_u1", 1, 1⟩]
    threads := [⟨"t1", "u1", none, some "cached", 1, 5⟩] }

/-- A database with no users and no threads. -/
def emptyDB : DB := { users := [], threads := [] }

/-- A 22-message sequence with a leading system message, for exercising
the truncating branch of `filter_messages`. -/
def longChat : List LCMessage :=
  LCMessage.system "s" :: List.replicate 21 (LCMessage.human "h")

/-- A valid chat request. -/
def sampleReq : ChatRequest := ⟨"u1", "t1", "hello"⟩

/-- A blank-message chat request (the spec's C5 scenario). -/
def blankReq : ChatRequest := ⟨"u1", "t1", ""⟩

/-- A clean two-chunk agent run (one token chunk, one tools chunk) that
writes nothing. -/
def sampleRun : AgentRun :=
  { chunks := [.agent [LCMessage.ai "hi" []], .other]
    raised := none
    persist := id }

/-! Section: Helper lemmas -/

theorem extractFirstSystem_fst_isSystem (l : List LCMessage) :
    ∀ m, (extractFirstSystem l).1 = some m → m.isSystemMsg = true := by
  induction l with
  | nil => intro m h; simp [extractFirstSystem] at h
  | cons x t ih =>
    intro m h
    by_cases hx : x.isSystemMsg
    · simp [extractFirstSystem, hx] at h
      exact h ▸ hx
    · simp [extractFirstSystem, hx] at h
      exact ih m h

theorem isToolMsg_eq_false_of_isSystemMsg {m : LCMessage}
    (h : m.isSystemMsg = true) : m.isToolMsg = false := by
  cases m <;> simp_all [LCMessage.isSystemMsg, LCMessage.isToolMsg]

theorem dropWhile_head?_eq_false {α : Type} (p : α → Bool) :
    ∀ (l : List α) (m : α), (l.dropWhile p).head? = some m → p m = false := by
  intro l
  induction l with
  | nil => intro m h; simp [List.dropWhile] at h
  | cons x t ih =>
    intro m h
    by_cases hx : p x
    · rw [List.dropWhile_cons_of_pos hx] at h
      exact ih m h
    · rw [List.dropWhile_cons_of_neg hx] at h
      simp at h
      simp at hx
      subst h
      exact hx

theorem length_dropWhile_le {α : Type} (p : α → Bool) :
    ∀ l : List α, (l.dropWhile p).length ≤ l.length := by
  intro l
  induction l with
  | nil => simp [List.dropWhile]
  | cons x t ih =>
    by_cases hx : p x
    · rw [List.dropWhile_cons_of_pos hx]
      exact Nat.le_trans ih (Nat.le_succ _)
    · rw [List.dropWhile_cons_of_neg hx]

theorem takeRecent_length_le (n : Nat) (l : List LCMessage) :
    (takeRecent n l).length ≤ n := by
  unfold takeRecent
  split
  · simp only [List.length_drop]
    omega
  · omega

theorem filter_messages_of_le (msgs : List LCMessage) (h : msgs.length ≤ 20) :
    filter_messages msgs = msgs := by
  unfold filter_messages
  rw [if_pos h]

theorem filter_messages_of_system (msgs : List LCMessage) (s : LCMessage)
    (rest : List LCMessage) (h : 20 < msgs.length)
    (he : extractFirstSystem msgs = (some s, rest)) :
    filter_messages msgs =
      s :: List.dropWhile LCMessage.isToolMsg (takeRecent 19 rest) := by
  unfold filter_messages
  rw [if_neg (by omega)]
  simp only [he]

theorem filter_messages_of_nosys (msgs : List LCMessage)
    (rest : List LCMessage) (h : 20 < msgs.length)
    (he : extractFirstSystem msgs = (none, rest)) :
    filter_messages msgs =
      List.dropWhile LCMessage.isToolMsg (takeRecent 20 rest) := by
  unfold filter_messages
  rw [if_neg (by omega)]
  simp only [he]

/-! Section: Claim theorems -/

/-- C3 counterexample: the claim quantifies over every input sequence, but
a sequence of length ≤ 20 is returned unchanged, so an input that itself
starts with a tool-result message yields an output whose first element is
a tool-result message. -/
theorem filterOutput_head_tool_counterexample :
    (filter_messages [LCMessage.toolMsg "r"]).head? = some (LCMessage.toolMsg "r")
    ∧ (LCMessage.toolMsg "r").isToolMsg = true :=
  ⟨rfl, rfl⟩

/-- C3 amended: for every input message sequence of length greater
than 20 (the truncating branch), the Message Window Filter's output never
has a tool-result message as its first element. -/
theorem filterOutput_no_leading_tool_when_truncated (msgs : List LCMessage)
    (h : 20 < msgs.length) :
    ∀ m, (filter_messages msgs).head? = some m → m.isToolMsg = false := by
  intro m hm
  rcases hsys : extractFirstSystem msgs with ⟨os, rest⟩
  cases os with
  | some s =>
    rw [filter_messages_of_system msgs s rest h hsys] at hm
    simp at hm
    have hs : s.isSystemMsg = true :=
      extractFirstSystem_fst_isSystem msgs s (by rw [hsys])
    subst hm
    exact isToolMsg_eq_false_of_isSystemMsg hs
  | none =>
    rw [filter_messages_of_nosys msgs rest h hsys] at hm
    exact dropWhile_head?_eq_false _ _ _ hm

/-- C3 amended witness at the concrete 22-message input `longChat`. -/
theorem filterOutput_no_leading_tool_witness :
    20 < longChat.length
    ∧ ∀ m, (filter_messages longChat).head? = some m → m.isToolMsg = false :=
  ⟨by decide, filterOutput_no_leading_tool_when_truncated longChat (by decide)⟩

/-- C4: for every message sequence of length > 20 whose first element is a
system message, the filter's output begins with that system message, its
total length is ≤ 20, and its remaining elements are the most recent 19
of the messages after the pinned system message with leading tool-results
dropped; every sequence of length ≤ 20 is returned unchanged. -/
theorem filterWindow_pins_system_and_bounds (msgs : List LCMessage) :
    (∀ m, msgs.head? = some m → m.isSystemMsg = true → 20 < msgs.length →
      filter_messages msgs =
          m :: List.dropWhile LCMessage.isToolMsg (takeRecent 19 msgs.tail)
        ∧ (filter_messages msgs).length ≤ 20)
    ∧ (msgs.length ≤ 20 → filter_messages msgs = msgs) := by
  constructor
  · intro m hm hsys hlen
    cases msgs with
    | nil => simp at hm
    | cons x t =>
      have hxm : x = m := by simpa using hm
      subst hxm
      have he : extractFirstSystem (x :: t) = (some x, t) := by
        unfold extractFirstSystem
        rw [if_pos hsys]
      have heq := filter_messages_of_system (x :: t) x t hlen he
      refine ⟨by simpa using heq, ?_⟩
      rw [heq]
      have h1 := length_dropWhile_le LCMessage.isToolMsg (takeRecent 19 t)
      have h2 := takeRecent_length_le 19 t
      simp only [List.length_cons]
      omega
  · exact filter_messages_of_le msgs

theorem pyBlank_eq_true_of_allWhitespace {v : String}
    (h : v.toList.all Char.isWhitespace = true) : pyBlank v = true := by
  unfold pyBlank
  rw [h, Bool.or_true]

theorem chunkEvents_eq_of_chunkOk (c : StreamChunk) (h : chunkOk c = true) :
    chunkEvents c = .ok ((chunkToken c).toList.map OutputEvent.token) := by
  cases c with
  | other => rfl
  | agent ms =>
    cases ms with
    | nil => simp [chunkOk] at h
    | cons a as =>
      rcases hl : (a :: as).getLast? with _ | m
      · simp at hl
      · by_cases hp : (m.content ≠ "" ∧ m.content ≠ "\n") <;>
          simp [chunkEvents, chunkToken, hl, hp]

theorem chunkEvents_ok_shape (c : StreamChunk) (evs : List OutputEvent)
    (h : chunkEvents c = .ok evs) :
    ∃ ss : List String, evs = ss.map OutputEvent.token := by
  cases c with
  | other =>
    simp [chunkEvents] at h
    exact ⟨[], by simpa using h⟩
  | agent ms =>
    rcases hl : ms.getLast? with _ | m
    · simp [chunkEvents, hl] at h
    · simp only [chunkEvents, hl, Except.ok.injEq] at h
      by_cases hp : (m.content ≠ "" ∧ m.content ≠ "\n")
      · rw [if_pos hp] at h
        exact ⟨[m.content], h.symm⟩
      · rw [if_neg hp] at h
        exact ⟨[], h.symm⟩

theorem emitChunks_structure (cs : List StreamChunk) (raised : Option String) :
    ∃ (ts : List String) (t : OutputEvent),
      emitChunks cs raised = ts.map OutputEvent.token ++ [t]
      ∧ (t = .done ∨ ∃ m, t = .error m) := by
  induction cs with
  | nil =>
    cases raised with
    | none => exact ⟨[], .done, rfl, .inl rfl⟩
    | some e => exact ⟨[], .error e, rfl, .inr ⟨e, rfl⟩⟩
  | cons c cs ih =>
    rcases hc : chunkEvents c with e | evs
    · exact ⟨[], .error e, by simp [emitChunks, hc], .inr ⟨e, rfl⟩⟩
    · obtain ⟨ts, t, hts, ht⟩ := ih
      obtain ⟨ss, rfl⟩ := chunkEvents_ok_shape c evs hc
      refine ⟨ss ++ ts, t, ?_, ht⟩
      simp [emitChunks, hc, hts]

theorem emitChunks_of_all_ok (cs : List StreamChunk) (raised : Option String)
    (h : ∀ c ∈ cs, chunkOk c = true) :
    emitChunks cs raised =
      (tokensOf cs).map OutputEvent.token ++ [terminalOf raised] := by
  induction cs with
  | nil => cases raised <;> rfl
  | cons c cs ih =>
    have hc := h c (List.mem_cons_self c cs)
    have hcs : ∀ c' ∈ cs, chunkOk c' = true :=
      fun c' hc' => h c' (List.mem_cons_of_mem _ hc')
    simp only [emitChunks, chunkEvents_eq_of_chunkOk c hc]
    rw [ih hcs]
    simp only [tokensOf, List.filterMap_cons]
    cases chunkToken c <;> simp

/-- C5: a chat request in which user_id, thread_id, or message is blank
after trimming yields exactly one `error` event and terminates, with the
checkpoint store unchanged and the agent run never consulted (the result
does not depend on `run`). -/
theorem streamChat_blank_params_single_error (req : ChatRequest)
    (run : AgentRun) (store : CheckpointStore)
    (h : req.user_id.toList.all Char.isWhitespace = true
      ∨ req.thread_id.toList.all Char.isWhitespace = true
      ∨ req.message.toList.all Char.isWhitespace = true) :
    stream_chat req run store = ([.error paramErrMsg], store) := by
  unfold stream_chat
  have hcond :
      (pyBlank req.user_id || pyBlank req.thread_id || pyBlank req.message) = true := by
    rcases h with h | h | h <;> simp [pyBlank_eq_true_of_allWhitespace h]
  rw [if_pos hcond]

/-- C5 witness at the spec's scenario `{userId:"u1", threadId:"t1",
message:""}`. -/
theorem streamChat_blank_params_witness :
    blankReq.message.toList.all Char.isWhitespace = true
    ∧ stream_chat blankReq sampleRun emptyStore = ([.error paramErrMsg], emptyStore) :=
  ⟨by decide,
   streamChat_blank_params_single_error blankReq sampleRun emptyStore
     (.inr (.inr (by decide)))⟩

/-- C6: every turn's event stream is zero or more `token` events followed
by exactly one terminal event (`done` or `error`) with nothing after it;
moreover a validated turn whose chunks all process cleanly emits exactly
one `token` per non-empty, non-bare-newline content increment in
generation order, terminated by `done` when no exception was raised and by
`error` otherwise. -/
theorem streamChat_token_then_terminal (req : ChatRequest) (run : AgentRun)
    (store : CheckpointStore) :
    (∃ (ts : List String) (t : OutputEvent),
      (stream_chat req run store).1 = ts.map OutputEvent.token ++ [t]
      ∧ (t = .done ∨ ∃ m, t = .error m))
    ∧ ((pyBlank req.user_id || pyBlank req.thread_id || pyBlank req.message) = false →
        (∀ c ∈ run.chunks, chunkOk c = true) →
        (stream_chat req run store).1 =
          (tokensOf run.chunks).map OutputEvent.token ++ [terminalOf run.raised]) := by
  constructor
  · by_cases hv :
      (pyBlank req.user_id || pyBlank req.thread_id || pyBlank req.message) = true
    · refine ⟨[], .error paramErrMsg, ?_, .inr ⟨_, rfl⟩⟩
      simp [stream_chat, hv]
    · have hv' :
          (pyBlank req.user_id || pyBlank req.thread_id || pyBlank req.message) = false := by
        simpa using hv
      simpa [stream_chat, hv'] using emitChunks_structure run.chunks run.raised
  · intro hv hok
    simp only [stream_chat, hv, Bool.false_eq_true, if_false]
    exact emitChunks_of_all_ok run.chunks run.raised hok

/-- C6 witness at a concrete valid request and clean two-chunk run. -/
theorem streamChat_token_then_terminal_witness :
    (pyBlank sampleReq.user_id || pyBlank sampleReq.thread_id ||
        pyBlank sampleReq.message) = false
    ∧ (∀ c ∈ sampleRun.chunks, chunkOk c = true)
    ∧ (stream_chat sampleReq sampleRun emptyStore).1 =
        (tokensOf sampleRun.chunks).map OutputEvent.token ++ [terminalOf sampleRun.raised] :=
  ⟨by decide, by decide,
   (streamChat_token_then_terminal sampleReq sampleRun emptyStore).2 (by decide) (by decide)⟩

theorem histProject_eq_spec (m : LCMessage) :
    histProject m =
      if (decide (m.msgType = "human") ||
          (decide (m.msgType = "ai") && decide (m.toolCalls = []) &&
            !(m.content.toList.all Char.isWhitespace))) = true
      then some ⟨if m.msgType = "human" then "user" else "assistant", m.content⟩
      else none := by
  cases m with
  | system c =>
    simp [histProject, LCMessage.msgType, LCMessage.content, LCMessage.toolCalls]
  | human c =>
    simp [histProject, LCMessage.msgType, LCMessage.content, LCMessage.toolCalls,
      convert_message_role]
  | ai c tc =>
    by_cases htc : tc = []
    · by_cases hw : c.toList.all Char.isWhitespace = true
      · simp only [histProject, LCMessage.msgType, LCMessage.content,
          LCMessage.toolCalls, hw, htc]
        simp
      · have hw' : c.toList.all Char.isWhitespace = false := by simpa using hw
        by_cases hc : c = ""
        · subst hc
          exact absurd hw' (by decide)
        · simp only [histProject, LCMessage.msgType, LCMessage.content,
            LCMessage.toolCalls, hw', hc, htc]
          simp [convert_message_role]
    · simp only [histProject, LCMessage.msgType, LCMessage.content,
        LCMessage.toolCalls, htc]
      simp [htc]
  | toolMsg c =>
    simp [histProject, LCMessage.msgType, LCMessage.content, LCMessage.toolCalls]

theorem filterMap_histProject_eq (raw : List LCMessage) :
    raw.filterMap histProject = historySpec raw := by
  induction raw with
  | nil => rfl
  | cons m t ih =>
    rw [List.filterMap_cons]
    by_cases hp :
        (decide (m.msgType = "human") ||
          (decide (m.msgType = "ai") && decide (m.toolCalls = []) &&
            !(m.content.toList.all Char.isWhitespace))) = true
    · rw [histProject_eq_spec m, if_pos hp]
      simp only [historySpec, List.filter_cons, hp, if_true, List.map_cons]
      rw [ih]
      rfl
    · rw [histProject_eq_spec m, if_neg hp]
      simp only [historySpec, List.filter_cons, hp, if_false]
      exact ih

/-- C7: `get_thread_history` returns exactly the `human`/`ai` messages in
original order, excluding `ai` messages with pending tool calls and `ai`
messages with blank content, mapped `human`→`user` and `ai`→`assistant`
(the spec-side projection `historySpec`); consequently every output role
is `user` or `assistant`. -/
theorem threadHistory_matches_spec (store : CheckpointStore) (uid tid : String) :
    get_thread_history store uid tid = historySpec ((store tid).getD [])
    ∧ ((get_thread_history store uid tid).all fun it =>
        decide (it.role = "user") || decide (it.role = "assistant")) = true := by
  have h1 : get_thread_history store uid tid = historySpec ((store tid).getD []) :=
    filterMap_histProject_eq _
  refine ⟨h1, ?_⟩
  rw [h1]
  unfold historySpec
  rw [List.all_eq_true]
  intro it hit
  rw [List.mem_map] at hit
  obtain ⟨m, hm, rfl⟩ := hit
  by_cases hh : m.msgType = "human"
  · rw [if_pos hh]
    simp
  · rw [if_neg hh]
    simp

/-- C9: the list-threads route handler passes three positional arguments
to a service method accepting one, so every request to the endpoint
raises `TypeError` instead of returning a thread list. -/
theorem listThreads_route_always_raises (db : DB) (store : CheckpointStore)
    (user_id : String) (page page_size : Nat) :
    get_threads_route db store user_id page page_size = .raised "TypeError" := by
  unfold get_threads_route
  rw [if_neg (by simp [get_threads_call_args, get_user_threads_param_count])]

/-- C4 witness at the concrete inputs `longChat` (22 messages, leading
system message) and a singleton short sequence. -/
theorem filterWindow_pins_system_witness :
    longChat.head? = some (LCMessage.system "s")
    ∧ (LCMessage.system "s").isSystemMsg = true
    ∧ 20 < longChat.length
    ∧ filter_messages longChat =
        LCMessage.system "s" ::
          List.dropWhile LCMessage.isToolMsg (takeRecent 19 longChat.tail)
    ∧ (filter_messages longChat).length ≤ 20
    ∧ filter_messages [LCMessage.human "a"] = [LCMessage.human "a"] :=
  ⟨rfl, rfl, by decide,
   ((filterWindow_pins_system_and_bounds longChat).1 _ rfl rfl (by decide)).1,
   ((filterWindow_pins_system_and_bounds longChat).1 _ rfl rfl (by decide)).2,
   (filterWindow_pins_system_and_bounds [LCMessage.human "a"]).2 (by decide)⟩

theorem mem_get_user_threads_of_row (db : DB) (store : CheckpointStore)
    (uid : String) (row : ThreadRow) (hrow : row ∈ db.threads)
    (huid : row.user_id = uid) :
    buildThreadItem store row ∈ get_user_threads db store uid := by
  unfold get_user_threads
  refine List.mem_map_of_mem _ ?_
  rw [List.mem_insertionSort]
  exact List.mem_filter.mpr ⟨hrow, by simp [huid]⟩

theorem has_empty_thread_true (db : DB) (store : CheckpointStore) (uid : String)
    (row : ThreadRow) (hrow : row ∈ db.threads) (huid : row.user_id = uid)
    (hcnt : get_message_count store row.id = 0) :
    has_empty_thread db store uid = true := by
  unfold has_empty_thread
  rw [List.any_eq_true]
  exact ⟨buildThreadItem store row,
    mem_get_user_threads_of_row db store uid row hrow huid,
    by simp [buildThreadItem, row_to_thread_item, hcnt]⟩

/-- C1: for every user who already has at least one thread whose live
message count in the Checkpoint Store is zero, `create_thread` raises the
empty-thread conflict error and leaves the database unchanged (no new
thread row is inserted); the hypothesis constrains only live message
counts, never any stored column. -/
theorem createThread_conflict_when_user_has_empty_thread (db : DB)
    (store : CheckpointStore) (now : Nat) (ntid dtid uid : String)
    (title : Option String)
    (hu : db.users.any (fun u => decide (u.id = uid)) = true)
    (he : ∃ row ∈ db.threads, row.user_id = uid ∧ get_message_count store row.id = 0) :
    create_thread db store now ntid dtid uid title = (.error conflictMsg, db) := by
  obtain ⟨row, hrow, huid, hcnt⟩ := he
  unfold create_thread
  have hg : get_or_create_user db uid none dtid now = db := by
    unfold get_or_create_user
    rw [if_pos hu]
  rw [hg]
  rw [if_pos (has_empty_thread_true db store uid row hrow huid hcnt)]

/-- C1 witness at the concrete one-user one-empty-thread database. -/
theorem createThread_conflict_witness :
    sampleDB.users.any (fun u => decide (u.id = "u1")) = true
    ∧ create_thread sampleDB emptyStore 9 "nt" "dt" "u1" none =
        (.error conflictMsg, sampleDB) :=
  ⟨by decide,
   createThread_conflict_when_user_has_empty_thread sampleDB emptyStore 9 "nt" "dt"
     "u1" none (by decide)
     ⟨⟨"t1", "u1", none, some "cached", 1, 5⟩, by decide, rfl, rfl⟩⟩

/-- C2: the first-ever `create_thread` call for a brand-new user (no user
row) creates the user row with the derived default username together with
one seeded default thread, then — provided the fresh default thread id has
no checkpoint messages — raises the empty-thread conflict error, leaving
the new user row and default thread in place and never returning a
thread. -/
theorem createThread_new_user_seeds_and_conflicts (db : DB)
    (store : CheckpointStore) (now : Nat) (ntid dtid uid : String)
    (title : Option String)
    (hu : db.users.any (fun u => decide (u.id = uid)) = false)
    (hc : get_message_count store dtid = 0) :
    create_thread db store now ntid dtid uid title =
      (.error conflictMsg,
       { users := db.users ++ [⟨uid, "user_" ++ uid.take 8, now, now⟩]
         threads := db.threads ++ [⟨dtid, uid, some defaultThreadTitle, none, now, now⟩] }) := by
  unfold create_thread
  have hg : get_or_create_user db uid none dtid now =
      { users := db.users ++ [⟨uid, "user_" ++ uid.take 8, now, now⟩]
        threads := db.threads ++ [⟨dtid, uid, some defaultThreadTitle, none, now, now⟩] } := by
    unfold get_or_create_user
    rw [if_neg (by simp [hu])]
    rfl
  rw [hg]
  rw [if_pos (has_empty_thread_true _ store uid
    ⟨dtid, uid, some defaultThreadTitle, none, now, now⟩ (by simp) rfl hc)]

/-- C2 witness at the empty database. -/
theorem createThread_new_user_witness :
    emptyDB.users.any (fun u => decide (u.id = "u1")) = false
    ∧ get_message_count emptyStore "dt" = 0
    ∧ create_thread emptyDB emptyStore 3 "nt" "dt" "u1" none =
        (.error conflictMsg,
         { users := [⟨"u1", "user_" ++ "u1".take 8, 3, 3⟩]
           threads := [⟨"dt", "u1", some defaultThreadTitle, none, 3, 3⟩] }) :=
  ⟨rfl, rfl,
   createThread_new_user_seeds_and_conflicts emptyDB emptyStore 3 "nt" "dt" "u1" none
     rfl rfl⟩

/-- C8 counterexample: for an empty thread with a populated stored
`preview` column, `get_user_threads` returns the stored column value (via
the Python `preview or row.get("preview")` fallback), while the live
preview computed from the Checkpoint Store is `None` — refuting the claim
that the returned preview is never taken from the stored column. -/
theorem listThreads_preview_from_column_counterexample :
    (get_user_threads sampleDB emptyStore "u1").map (fun t => t.preview) =
      [some "cached"]
    ∧ get_message_preview emptyStore "t1" = none := by
  exact ⟨rfl, rfl⟩

/-- C8 amended: `get_user_threads` returns the user's threads — every
thread row of the user appears, built live from the Checkpoint Store, and
the output length equals the number of the user's rows, so no row is
dropped or invented — ordered by `updated_at` descending, with each
entry's emptiness flag computed live (message-count = 0) and its preview
equal to the live last-message preview (truncated with an ellipsis
marker) when that is non-null and non-empty, falling back to the stored
`preview` column otherwise. -/
theorem listThreads_ordered_live_amended (db : DB) (store : CheckpointStore)
    (uid : String) :
    List.Pairwise (fun a b : ThreadItem => b.updated_at.getD 0 ≤ a.updated_at.getD 0)
        (get_user_threads db store uid)
    ∧ (∀ it ∈ get_user_threads db store uid, ∃ row ∈ db.threads,
        row.user_id = uid ∧ it.id = row.id ∧ it.title = row.title
        ∧ it.is_empty = decide (get_message_count store row.id = 0)
        ∧ it.preview = pyOrStr (get_message_preview store row.id) row.preview
        ∧ it.created_at = some row.created_at
        ∧ it.updated_at = some row.updated_at)
    ∧ (∀ row ∈ db.threads, row.user_id = uid →
        buildThreadItem store row ∈ get_user_threads db store uid)
    ∧ (get_user_threads db store uid).length =
        (db.threads.filter fun r => decide (r.user_id = uid)).length := by
  refine ⟨?_, ?_, ?_, ?_⟩
  · unfold get_user_threads
    have hs := List.sorted_insertionSort rowGE
      (db.threads.filter fun r => decide (r.user_id = uid))
    exact hs.map _ fun a b hab => by
      simpa [buildThreadItem, row_to_thread_item] using hab
  · intro it hit
    unfold get_user_threads at hit
    rw [List.mem_map] at hit
    obtain ⟨row, hrow, rfl⟩ := hit
    rw [List.mem_insertionSort, List.mem_filter] at hrow
    obtain ⟨hmem, hp⟩ := hrow
    exact ⟨row, hmem, by simpa using hp, rfl, rfl, rfl, rfl, rfl, rfl⟩
  · intro row hrow huid
    exact mem_get_user_threads_of_row db store uid row hrow huid
  · unfold get_user_threads
    rw [List.length_map, List.length_insertionSort]

/-- C8 amended witness: the ordering, completeness and length parts
evaluated at the concrete one-thread database. -/
theorem listThreads_ordered_live_witness :
    List.Pairwise (fun a b : ThreadItem => b.updated_at.getD 0 ≤ a.updated_at.getD 0)
      (get_user_threads sampleDB emptyStore "u1")
    ∧ buildThreadItem emptyStore ⟨"t1", "u1", none, some "cached", 1, 5⟩ ∈
        get_user_threads sampleDB emptyStore "u1"
    ∧ (get_user_threads sampleDB emptyStore "u1").length =
        (sampleDB.threads.filter fun r => decide (r.user_id = "u1")).length :=
  ⟨(listThreads_ordered_live_amended sampleDB emptyStore "u1").1,
   (listThreads_ordered_live_amended sampleDB emptyStore "u1").2.2.1
     ⟨"t1", "u1", none, some "cached", 1, 5⟩ (by decide) rfl,
   (listThreads_ordered_live_amended sampleDB emptyStore "u1").2.2.2⟩

theorem find?_map_update (l : List ThreadRow) (tid : String)
    (f : ThreadRow → ThreadRow) (hf : ∀ r, (f r).id = r.id) :
    (l.map fun r => if decide (r.id = tid) then f r else r).find?
        (fun r => decide (r.id = tid))
      = (l.find? fun r => decide (r.id = tid)).map
          fun r => if decide (r.id = tid) then f r else r := by
  rw [List.find?_map]
  have hpg : ((fun r => decide (r.id = tid)) ∘
        fun r => if decide (r.id = tid) then f r else r) =
      fun r => decide (r.id = tid) := by
    funext r
    by_cases hr : r.id = tid <;> simp [Function.comp, hr, hf]
  rw [hpg]

/-- C10 counterexample: updating a thread's title and re-fetching it
changes `updated_at` (the schema's `ON UPDATE CURRENT_TIMESTAMP`), so not
every field other than `title` is unchanged. -/
theorem updateThread_roundtrip_counterexample :
    ((update_thread sampleDB 9 "t1" (some "X") none).1.map fun t => t.updated_at) =
      some (some 9)
    ∧ ((get_thread sampleDB "t1").map fun t => t.updated_at) = some (some 5)
    ∧ ((update_thread sampleDB 9 "t1" (some "X") none).1.map fun t => t.title) =
        some (some "X") := by
  exact ⟨rfl, rfl, rfl⟩

/-- C10 amended: for every existing thread, `update_thread` with
title `X` followed by `get_thread` returns a thread whose title is `X` and
whose `id`, `user_id`, `preview` and `created_at` are unchanged, while
`updated_at` is unchanged only when the stored title already equalled `X`
and otherwise is set to the update time by the schema's
`ON UPDATE CURRENT_TIMESTAMP`. -/
theorem updateThread_roundtrip_amended (db : DB) (now : Nat) (tid : String)
    (r : ThreadRow)
    (hr : db.threads.find? (fun row => decide (row.id = tid)) = some r) :
    get_thread db tid = some (row_to_thread_item r)
    ∧ ∃ it, (update_thread db now tid (some "X") none).1 = some it
      ∧ it.title = some "X"
      ∧ it.id = r.id ∧ it.user_id = r.user_id ∧ it.preview = r.preview
      ∧ it.created_at = some r.created_at
      ∧ it.updated_at = some (if r.title = some "X" then r.updated_at else now) := by
  have hid0 := List.find?_some hr
  have hid : decide (r.id = tid) = true := hid0
  constructor
  · unfold get_thread
    rw [hr]
    rfl
  · have hsel : (update_thread db now tid (some "X") none).1 =
        ((db.threads.map fun row =>
            if decide (row.id = tid) then applyThreadUpdate now (some "X") none row
            else row).find? fun row => decide (row.id = tid)).map
          fun row => row_to_thread_item row := rfl
    rw [hsel]
    rw [find?_map_update db.threads tid (applyThreadUpdate now (some "X") none)
      (fun _ => rfl)]
    rw [hr]
    have hg : (some r).map
        (fun row => if decide (row.id = tid) then applyThreadUpdate now (some "X") none row
          else row) = some (applyThreadUpdate now (some "X") none r) := by
      have hr' : r.id = tid := of_decide_eq_true hid
      simp [hr']
    rw [hg]
    refine ⟨_, rfl, rfl, rfl, rfl, rfl, rfl, ?_⟩
    by_cases ht : r.title = some "X"
    · simp [row_to_thread_item, applyThreadUpdate, ht]
    · have ht' : some "X" ≠ r.title := fun h => ht h.symm
      simp [row_to_thread_item, applyThreadUpdate, ht, ht']

/-- C10 amended witness at the concrete database (title updated from
`None` to `X` at time 9). -/
theorem updateThread_roundtrip_witness :
    sampleDB.threads.find? (fun row => decide (row.id = "t1")) =
      some ⟨"t1", "u1", none, some "cached", 1, 5⟩
    ∧ get_thread sampleDB "t1" =
        some (row_to_thread_item ⟨"t1", "u1", none, some "cached", 1, 5⟩) :=
  ⟨by decide,
   (updateThread_roundtrip_amended sampleDB 9 "t1" _ (by decide)).1⟩
